import Mathlib

/-!
Verification of `assets/scripts/build_gallery.py`.

The file embeds the two components of the script:

* the static dependency extractor `get_contrib_requirements`, modelled over a
  fragment of the Python abstract syntax tree that covers everything the
  function inspects (top-level class definitions, assignment statements with
  arbitrary target shapes, and the literal expressions that
  `ast.literal_eval` accepts); and

* the gallery orchestrator `build_gallery` together with the shell helper
  `execute_shell_command`, modelled as explicit state passing over a record
  holding the external registry contents, the module search path, the trace
  of externally visible actions (subprocess invocations, path extension,
  dynamic imports) and the log stream.  The outside world (registry contents,
  installer exit codes, directory listing, module import side effects,
  diagnostics) is an explicit environment record.

Fallible Python code (uncaught exceptions) is embedded with `Except String`.
-/

namespace BuildGallery

/-- Values produced by `ast.literal_eval`.  Dictionary keys are restricted to
strings, the only key shape occurring in `library_metadata` literals. -/
inductive PyVal : Type where
  | none : PyVal
  | bool (b : Bool) : PyVal
  | int (n : Int) : PyVal
  | str (s : String) : PyVal
  | list (xs : List PyVal) : PyVal
  | dict (kvs : List (String × PyVal)) : PyVal

/-- Expressions that can appear on the right-hand side of an assignment.
`nameRef` (a variable reference) and `call` (a function call) are the
non-literal shapes that make `ast.literal_eval` raise `ValueError`. -/
inductive PyExpr : Type where
  | noneLit : PyExpr
  | boolLit (b : Bool) : PyExpr
  | intLit (n : Int) : PyExpr
  | strLit (s : String) : PyExpr
  | listLit (elts : List PyExpr) : PyExpr
  | dictLit (kvs : List (String × PyExpr)) : PyExpr
  | nameRef (id : String) : PyExpr
  | call (func : String) (args : List PyExpr) : PyExpr

/-- Assignment targets: `ast.Name` carries an `id`; tuple and list
destructuring patterns, subscripts and attribute targets do not. -/
inductive PyTarget : Type where
  | name (id : String) : PyTarget
  | tuple (elts : List PyTarget) : PyTarget
  | listPat (elts : List PyTarget) : PyTarget
  | subscript : PyTarget
  | attributeTgt : PyTarget

/-- Statements occurring inside a class body.  `block` stands for any
compound statement (function definition, `if`, `for`, nested class, ...)
whose children `ast.walk` descends into. -/
inductive PyStmt : Type where
  | assign (targets : List PyTarget) (value : PyExpr) : PyStmt
  | block (body : List PyStmt) : PyStmt
  | other : PyStmt

/-- Direct children of the module root: `ast.iter_child_nodes` filtered by
`isinstance(child, ast.ClassDef)` keeps only `classDef` nodes. -/
inductive TopStmt : Type where
  | classDef (cname : String) (body : List PyStmt) : TopStmt
  | plain : TopStmt

/-- Result shape of `get_contrib_requirements`:
`{"classes": [], "requirements": []}`. -/
structure RequirementsInfo : Type where
  classes : List String
  requirements : List PyVal

mutual

/-- `ast.literal_eval(node)`: evaluates literal expressions, raising
`ValueError` on anything else (variable references, calls). -/
def literal_eval : PyExpr → Except String PyVal
  | .noneLit => .ok .none
  | .boolLit b => .ok (.bool b)
  | .intLit n => .ok (.int n)
  | .strLit s => .ok (.str s)
  | .listLit elts =>
    match literal_eval_list elts with
    | .error e => .error e
    | .ok vs => .ok (.list vs)
  | .dictLit kvs =>
    match literal_eval_dict kvs with
    | .error e => .error e
    | .ok vs => .ok (.dict vs)
  | .nameRef _ => .error "ValueError: malformed node or string"
  | .call _ _ => .error "ValueError: malformed node or string"

/-- Elementwise evaluation of a list literal. -/
def literal_eval_list : List PyExpr → Except String (List PyVal)
  | [] => .ok []
  | e :: rest =>
    match literal_eval e with
    | .error msg => .error msg
    | .ok v =>
      match literal_eval_list rest with
      | .error msg => .error msg
      | .ok vs => .ok (v :: vs)

/-- Valuewise evaluation of a dict literal. -/
def literal_eval_dict : List (String × PyExpr) → Except String (List (String × PyVal))
  | [] => .ok []
  | (k, e) :: rest =>
    match literal_eval e with
    | .error msg => .error msg
    | .ok v =>
      match literal_eval_dict rest with
      | .error msg => .error msg
      | .ok vs => .ok ((k, v) :: vs)

end

/-- `target.id`: only `ast.Name` nodes have an `id` attribute; every other
target shape raises `AttributeError`. -/
def targetId : PyTarget → Option String
  | .name id => some id
  | _ => Option.none

/-- Whether a target is a simple name. -/
def isNameTgt : PyTarget → Bool
  | .name _ => true
  | _ => false

/-- The comprehension `[target.id for target in node.targets]`: `none` when
any element raises `AttributeError`. -/
def collectTargetIds : List PyTarget → Option (List String)
  | [] => some []
  | t :: rest =>
    match targetId t with
    | some id =>
      match collectTargetIds rest with
      | some ids => some (id :: ids)
      | Option.none => Option.none
    | Option.none => Option.none

/-- `[target.id for target in node.targets]` wrapped in
`try ... except (ValueError, AttributeError): target_ids = []`: the whole
comprehension is discarded as soon as one target is not a simple name. -/
def targetIds (targets : List PyTarget) : List String :=
  match collectTargetIds targets with
  | some ids => ids
  | Option.none => []

/-- Lookup in a Python dict built from a literal: a duplicated key keeps the
last binding. -/
def dictGetLast (kvs : List (String × PyVal)) (key : String) : Option PyVal :=
  match kvs with
  | [] => Option.none
  | (k, v) :: rest =>
    match dictGetLast rest key with
    | some r => some r
    | Option.none => if k = key then some v else Option.none

/-- `library_metadata.get("requirements", default)`: `.get` exists only on
dictionaries; on any other value `AttributeError` propagates. -/
def pyGet (v : PyVal) (key : String) (default : PyVal) : Except String PyVal :=
  match v with
  | .dict kvs =>
    match dictGetLast kvs key with
    | some r => .ok r
    | Option.none => .ok default
  | _ => .error "AttributeError: object has no attribute get"

/-- The characters of a Python string, each as a one-character string, the
elements `list.__iadd__` sees when handed a `str`. -/
def charStrings (s : String) : List String :=
  s.data.map (fun c => String.singleton c)

/-- `acc += v` on a Python list: extends with the elements of any iterable
(list elements, string characters, dict keys) and raises `TypeError` on a
non-iterable right-hand side. -/
def pyExtend (acc : List PyVal) : PyVal → Except String (List PyVal)
  | .list xs => .ok (acc ++ xs)
  | .str s => .ok (acc ++ s.data.map (fun c => PyVal.str (String.singleton c)))
  | .dict kvs => .ok (acc ++ kvs.map (fun p => PyVal.str p.1))
  | _ => .error "TypeError: object is not iterable"

/-- One `ast.Assign` node inside the walk: if `library_metadata` is among the
extracted target ids, evaluate the right-hand side as a literal, fetch its
`requirements` entry (default `[]`) and extend the accumulator. -/
def processAssign (acc : List PyVal) (targets : List PyTarget) (value : PyExpr) :
    Except String (List PyVal) :=
  if "library_metadata" ∈ targetIds targets then
    match literal_eval value with
    | .error e => .error e
    | .ok lm =>
      match pyGet lm "requirements" (.list []) with
      | .error e => .error e
      | .ok r => pyExtend acc r
  else .ok acc

mutual

/-- Auxiliary size measure for the breadth-first walk queue. -/
def stmtSize : PyStmt → Nat
  | .assign _ _ => 1
  | .other => 1
  | .block body => 1 + stmtsSize body

/-- Total size of a list of statements. -/
def stmtsSize : List PyStmt → Nat
  | [] => 0
  | s :: rest => stmtSize s + stmtsSize rest

end

/-- `ast.walk(child)` restricted to the `ast.Assign` nodes it yields:
breadth-first traversal with a queue, each compound statement appending its
children to the back of the queue. -/
def bfsAssigns (queue : List PyStmt) : List (List PyTarget × PyExpr) :=
  match queue with
  | [] => []
  | .assign ts v :: rest => (ts, v) :: bfsAssigns rest
  | .block body :: rest => bfsAssigns (rest ++ body)
  | .other :: rest => bfsAssigns rest
termination_by stmtsSize queue
decreasing_by
  · simp [stmtsSize, stmtSize]
  · have h : ∀ (l1 l2 : List PyStmt), stmtsSize (l1 ++ l2) = stmtsSize l1 + stmtsSize l2 := by
      intro l1 l2
      induction l1 with
      | nil => simp [stmtsSize]
      | cons s rest ih => simp [stmtsSize, ih]; omega
    simp [stmtsSize, stmtSize, h]
    omega
  · simp [stmtsSize, stmtSize]

/-- The inner loop of `get_contrib_requirements`: fold `processAssign` over
the assignment nodes the walk yields, propagating exceptions. -/
def foldAssigns (acc : List PyVal) : List (List PyTarget × PyExpr) → Except String (List PyVal)
  | [] => .ok acc
  | (ts, v) :: rest =>
    match processAssign acc ts v with
    | .error e => .error e
    | .ok acc2 => foldAssigns acc2 rest

/-- Processing of one top-level class: `requirements_info["classes"] +=
child.name` extends the classes list with the characters of the name (the
`+=` of a Python list with a string), then the subtree walk accumulates
requirements. -/
def processClass (info : RequirementsInfo) (cname : String) (body : List PyStmt) :
    Except String RequirementsInfo :=
  match foldAssigns info.requirements (bfsAssigns body) with
  | .error e => .error e
  | .ok reqs => .ok ⟨info.classes ++ charStrings cname, reqs⟩

/-- Fold over the direct children of the module root, keeping only class
definitions. -/
def extractTop (info : RequirementsInfo) : List TopStmt → Except String RequirementsInfo
  | [] => .ok info
  | .classDef cname body :: rest =>
    match processClass info cname body with
    | .error e => .error e
    | .ok info2 => extractTop info2 rest
  | .plain :: rest => extractTop info rest

/-- `get_contrib_requirements(filepath)` after `ast.parse`: the argument is
the parsed module (list of top-level statements); the file is never
executed, only analysed. -/
def get_contrib_requirements (tree : List TopStmt) : Except String RequirementsInfo :=
  extractTop ⟨[], []⟩ tree

/-! ## Orchestrator model -/

/-- Log levels of the script logger. -/
inductive LogLevel : Type where
  | debug : LogLevel
  | info : LogLevel
  | error : LogLevel
  deriving DecidableEq

/-- Externally visible actions of the orchestrator: subprocess invocation,
`sys.path.append`, and `importlib.import_module`. -/
inductive Event : Type where
  | shellCommand (cmd : String) : Event
  | sysPathAppend (dir : String) : Event
  | importModule (modname : String) : Event
  deriving DecidableEq

/-- Mutable process-wide state threaded through the orchestrator: the
external registry contents, `sys.path`, the trace of external actions and
the log stream. -/
structure PyState : Type where
  registry : List String
  sysPath : List String
  events : List Event
  logs : List (LogLevel × String)

/-- The outside world: registry contents at startup, the experimental
directory and its files (already parsed, paired with their file names in
`os.walk` order), the `__all__` lists of the two aggregator modules, what
each dynamic import registers, the exit code and standard output of each
shell command, and the diagnostics of each plugin. -/
structure Env : Type where
  initialRegistry : List String
  initialSysPath : List String
  contribDir : String
  contribFiles : List (String × List TopStmt)
  expectationsAll : List String
  metricsAll : List String
  importEffect : String → List String
  shellResult : String → Int
  shellStdout : String → String
  runDiagnostics : String → String

/-- The message logged at ERROR when the subprocess exits nonzero (the
`CalledProcessError` branch of `execute_shell_command`). -/
def subprocessErrorMessage (command : String) (code : Int) : String :=
  "A Sub-Process call Exception occurred. CalledProcessError: command " ++
    command ++ " returned non-zero exit status " ++ toString code

/-- `execute_shell_command(command)`: runs the command, logs its output at
INFO on success; on a nonzero exit the `CalledProcessError` raised by
`run(..., check=True)` is caught, logged at ERROR, and the return code is
returned instead of the exception propagating. -/
def execute_shell_command (env : Env) (s : PyState) (command : String) : PyState × Int :=
  let code := env.shellResult command
  let s1 : PyState := { s with events := s.events ++ [Event.shellCommand command] }
  if code = 0 then
    ({ s1 with logs := s1.logs ++ [(LogLevel.info, env.shellStdout command)] }, 0)
  else
    ({ s1 with logs :=
        s1.logs ++ [(LogLevel.error, subprocessErrorMessage command code)] }, code)

/-- `importlib.import_module`: registration happens as a side effect in the
external registry. -/
def import_module (env : Env) (s : PyState) (modname : String) : PyState :=
  { s with registry := s.registry ++ env.importEffect modname,
           events := s.events ++ [Event.importModule modname] }

/-- String conversion used by the f-string building the pip command; only
the container cases are abbreviated, they never occur in requirement
lists. -/
def pyFormat : PyVal → String
  | .str s => s
  | .int n => toString n
  | .bool b => if b then "True" else "False"
  | .none => "None"
  | .list _ => "list"
  | .dict _ => "dict"

/-- The command template `pip install "<requirement>"`. -/
def pipCommand (req : PyVal) : String :=
  "pip install \"" ++ pyFormat req ++ "\""

/-- The per-module install loop: one `execute_shell_command` call per
requirement, its return value discarded. -/
def install_requirements (env : Env) (s : PyState) : List PyVal → PyState
  | [] => s
  | req :: rest =>
    install_requirements env (execute_shell_command env s (pipCommand req)).1 rest

/-- One iteration of the aggregator loop: install the requirements recorded
for the module, if any, then import the submodule. -/
def processModule (env : Env) (requirements_dict : List (String × RequirementsInfo))
    (group : String) (s : PyState) (modname : String) : PyState :=
  let s1 :=
    match requirements_dict.lookup modname with
    | some info => install_requirements env s info.requirements
    | Option.none => s
  import_module env s1 (group ++ "." ++ modname)

/-- The aggregator loop over an `__all__` list. -/
def processModules (env : Env) (requirements_dict : List (String × RequirementsInfo))
    (group : String) (s : PyState) : List String → PyState
  | [] => s
  | m :: rest =>
    processModules env requirements_dict group
      (processModule env requirements_dict group s m) rest

/-- Filter of the `os.walk` loop: files ending in `.py` other than
`__init__.py`. -/
def isContribFile (filename : String) : Bool :=
  filename.endsWith ".py" && filename != "__init__.py"

/-- `file[:-3]`: the dictionary key is the file name without its
extension. -/
def contribKey (filename : String) : String :=
  filename.dropRight 3

/-- Building `requirements_dict`: run the extractor on every matching file;
an extraction failure propagates out of `build_gallery`. -/
def buildRequirementsDict :
    List (String × List TopStmt) → Except String (List (String × RequirementsInfo))
  | [] => .ok []
  | (fname, tree) :: rest =>
    if isContribFile fname then
      match get_contrib_requirements tree with
      | .error e => .error e
      | .ok info =>
        match buildRequirementsDict rest with
        | .error e => .error e
        | .ok dict => .ok ((contribKey fname, info) :: dict)
    else buildRequirementsDict rest

/-- First-occurrence deduplication, modelling the passage of a list through
`set(...)` (the claims about it are set-level, so the iteration order chosen
here is immaterial). -/
def pysetAux (seen : List String) : List String → List String
  | [] => []
  | x :: rest =>
    if x ∈ seen then pysetAux seen rest else x :: pysetAux (seen ++ [x]) rest

/-- `set(l)` as a duplicate-free list. -/
def pyset (l : List String) : List String :=
  pysetAux [] l

/-- The body of `if include_contrib_experimental:`: append the experimental
directory to `sys.path`, import the `expectations` aggregator, build
`requirements_dict` by extraction over every contrib file, run the
install-then-import loop over `expectations.__all__`, import the `metrics`
aggregator and run the same loop over its `__all__`. -/
def experimental_phase (env : Env) (s0 : PyState) : Except String PyState :=
  let s1 : PyState :=
    { s0 with sysPath := s0.sysPath ++ [env.contribDir],
              events := s0.events ++ [Event.sysPathAppend env.contribDir] }
  let s2 := import_module env s1 "expectations"
  match buildRequirementsDict env.contribFiles with
  | .error e => .error e
  | .ok requirements_dict =>
    let s3 := processModules env requirements_dict "expectations" s2 env.expectationsAll
    let s4 := import_module env s3 "metrics"
    .ok (processModules env requirements_dict "metrics" s4 env.metricsAll)

/-- The tail of `build_gallery`: re-query the registry, select the
expectation set according to `include_core`, and collect each selected
diagnostics of each selected expectation into `gallery_info`. -/
def gallery_phase (env : Env) (include_core : Bool) (core_expectations : List String)
    (s : PyState) : PyState × List (String × String) :=
  let all_expectations := s.registry
  let build_expectations :=
    if include_core then pyset all_expectations
    else (pyset all_expectations).filter (fun x => ! core_expectations.contains x)
  (s, build_expectations.map (fun e => (e, env.runDiagnostics e)))

/-- Propagation of an extraction failure past the optional experimental
phase: an exception aborts the run, otherwise the gallery phase follows. -/
def galleryTail (env : Env) (include_core : Bool) (core_expectations : List String) :
    Except String PyState → Except String (PyState × List (String × String))
  | .error e => .error e
  | .ok s => .ok (gallery_phase env include_core core_expectations s)

/-- `build_gallery(include_core, include_contrib_experimental)`: query the
registry, optionally install and import the experimental plugins, re-query
the registry, and run diagnostics for the selected expectation set.  The
returned pair is the final process state and the `gallery_info` mapping as
an association list. -/
def build_gallery (env : Env) (include_core : Bool)
    (include_contrib_experimental : Bool) :
    Except String (PyState × List (String × String)) :=
  let s0 : PyState := ⟨env.initialRegistry, env.initialSysPath, [], []⟩
  let core_expectations := s0.registry
  galleryTail env include_core core_expectations
    (if include_contrib_experimental then experimental_phase env s0 else .ok s0)

/-! ## Predicates and fixtures used by the statements -/

/-- Whether an `Except` result is a raised exception. -/
def exceptIsError {α : Type} : Except String α → Bool
  | .error _ => true
  | .ok _ => false

/-- Whether a value is a Python dict. -/
def isDict : PyVal → Bool
  | .dict _ => true
  | _ => false

/-- A right-hand side that makes the matched branch raise: either
`ast.literal_eval` itself raises, or it produces a non-mapping so that
`.get` raises `AttributeError`. -/
def badMetadataValue (value : PyExpr) : Prop :=
  (∃ e, literal_eval value = .error e) ∨
    (∃ v, literal_eval value = .ok v ∧ isDict v = false)

/-- The classes accumulator the source builds:
`requirements_info["classes"] += child.name` per top-level class, i.e. the
concatenation of the character strings of every class name. -/
def classChars : List TopStmt → List String
  | [] => []
  | .classDef cname _ :: rest => charStrings cname ++ classChars rest
  | .plain :: rest => classChars rest

/-- No class of the module has a walked assignment whose extracted target
ids contain `library_metadata`. -/
def NoMetadataAssign (tree : List TopStmt) : Prop :=
  ∀ cname body, TopStmt.classDef cname body ∈ tree →
    ∀ ts v, (ts, v) ∈ bfsAssigns body → "library_metadata" ∉ targetIds ts

/-- Whether a top-level statement is a class definition. -/
def isClassDef : TopStmt → Bool
  | .classDef _ _ => true
  | .plain => false

/-- Parsed form of a file whose single top-level class `Foo` assigns
`library_metadata` the mapping with requirements `numpy>=1.20` and
`pandas`. -/
def fooFileTree : List TopStmt :=
  [TopStmt.classDef "Foo"
    [PyStmt.assign [PyTarget.name "library_metadata"]
      (PyExpr.dictLit [("requirements",
        PyExpr.listLit [PyExpr.strLit "numpy>=1.20", PyExpr.strLit "pandas"])])]]

/-- A file whose single class assigns `library_metadata` a variable
reference, which `ast.literal_eval` rejects. -/
def badFileTree : List TopStmt :=
  [TopStmt.classDef "Foo"
    [PyStmt.assign [PyTarget.name "library_metadata"] (PyExpr.nameRef "x")]]

/-- A concrete environment for the orchestrator statements: one core
expectation, one contrib file, one experimental module, every installer
call failing with exit code 1. -/
def envW : Env where
  initialRegistry := ["expect_core"]
  initialSysPath := ["site-packages"]
  contribDir := "contrib/experimental/great_expectations_experimental"
  contribFiles := [("expect_mod.py", fooFileTree)]
  expectationsAll := ["expect_mod"]
  metricsAll := []
  importEffect := fun m => [m ++ ".registered"]
  shellResult := fun _ => 1
  shellStdout := fun _ => ""
  runDiagnostics := fun e => e ++ ".diagnostics"

/-- An empty starting state for the shell-helper statements. -/
def stW : PyState where
  registry := []
  sysPath := []
  events := []
  logs := []

/-- A file with one class whose only assignment does not target
`library_metadata`, followed by a non-class top-level statement. -/
def abFileTree : List TopStmt :=
  [TopStmt.classDef "Ab" [PyStmt.assign [PyTarget.name "x"] (PyExpr.intLit 1)],
   TopStmt.plain]

/-- A file with one class `A` requiring `numpy`. -/
def aFileTree : List TopStmt :=
  [TopStmt.classDef "A"
    [PyStmt.assign [PyTarget.name "library_metadata"]
      (PyExpr.dictLit [("requirements", PyExpr.listLit [PyExpr.strLit "numpy"])])]]

/-- A file with one class `B` requiring `pandas`. -/
def bFileTree : List TopStmt :=
  [TopStmt.classDef "B"
    [PyStmt.assign [PyTarget.name "library_metadata"]
      (PyExpr.dictLit [("requirements", PyExpr.listLit [PyExpr.strLit "pandas"])])]]

/-- Equality of process states up to the log stream. -/
def Agree (s t : PyState) : Prop :=
  s.registry = t.registry ∧ s.sysPath = t.sysPath ∧ s.events = t.events

/-- Observable part of a `build_gallery` outcome: everything except the log
stream. -/
def galleryObs :
    Except String (PyState × List (String × String)) →
      Except String ((List String × List String × List Event) × List (String × String))
  | .error e => .error e
  | .ok (s, g) => .ok ((s.registry, s.sysPath, s.events), g)

/-- Observable part of an optional-state outcome: everything except the log
stream. -/
def stateObs : Except String PyState → Except String (List String × List String × List Event)
  | .error e => .error e
  | .ok s => .ok (s.registry, s.sysPath, s.events)

/-! ## Lemmas about target-id extraction -/

theorem targetId_eq_none {t : PyTarget} (h : isNameTgt t = false) :
    targetId t = Option.none := by
  cases t <;> simp_all [isNameTgt, targetId]

theorem targetIds_of_nonname {targets : List PyTarget}
    (h : ∃ t, t ∈ targets ∧ isNameTgt t = false) : targetIds targets = [] := by
  obtain ⟨t, hmem, hname⟩ := h
  have hnone : collectTargetIds targets = Option.none := by
    induction targets with
    | nil => cases hmem
    | cons t0 rest ih =>
      rcases List.mem_cons.mp hmem with h0 | h0
      · subst h0
        simp [collectTargetIds, targetId_eq_none hname]
      · cases hf : targetId t0 <;> simp [collectTargetIds, hf, ih h0]
  simp [targetIds, hnone]

theorem targetIds_map_name (ids : List String) :
    targetIds (ids.map PyTarget.name) = ids := by
  have h : collectTargetIds (ids.map PyTarget.name) = some ids := by
    induction ids with
    | nil => simp [collectTargetIds]
    | cons i rest ih => simp [collectTargetIds, targetId, ih]
  simp [targetIds, h]

/-! ## Lemmas about skipped assignments -/

theorem processAssign_skip_of_nonname {targets : List PyTarget} {value : PyExpr}
    (h : ∃ t, t ∈ targets ∧ isNameTgt t = false) (acc : List PyVal) :
    processAssign acc targets value = .ok acc := by
  simp [processAssign, targetIds_of_nonname h]

theorem dictGetLast_eq_none {kvs : List (String × PyVal)} {key : String}
    (h : ∀ p, p ∈ kvs → p.1 ≠ key) : dictGetLast kvs key = Option.none := by
  induction kvs with
  | nil => simp [dictGetLast]
  | cons p rest ih =>
    obtain ⟨k, v⟩ := p
    have hk : k ≠ key := h (k, v) (List.mem_cons_self _ _)
    simp [dictGetLast, ih (fun q hq => h q (List.mem_cons_of_mem _ hq)), hk]

theorem processAssign_skip_of_nokey {targets : List PyTarget} {value : PyExpr}
    {kvs : List (String × PyVal)}
    (hmatch : "library_metadata" ∈ targetIds targets)
    (heval : literal_eval value = .ok (PyVal.dict kvs))
    (hnokey : ∀ p, p ∈ kvs → p.1 ≠ "requirements") (acc : List PyVal) :
    processAssign acc targets value = .ok acc := by
  simp [processAssign, hmatch, heval, pyGet, dictGetLast_eq_none hnokey, pyExtend]

/-! ## The breadth-first walk: deleting one yielded assignment -/

theorem stmtsSize_append (l1 l2 : List PyStmt) :
    stmtsSize (l1 ++ l2) = stmtsSize l1 + stmtsSize l2 := by
  induction l1 with
  | nil => simp [stmtsSize]
  | cons s rest ih => simp [stmtsSize, ih]; omega

theorem bfsAssigns_insert (q1 : List PyStmt) (ts : List PyTarget) (v : PyExpr) :
    ∀ q2 : List PyStmt, ∃ l1 l2,
      bfsAssigns (q1 ++ PyStmt.assign ts v :: q2) = l1 ++ (ts, v) :: l2 ∧
      bfsAssigns (q1 ++ q2) = l1 ++ l2 := by
  induction q1 with
  | nil =>
    intro q2
    refine ⟨[], bfsAssigns q2, ?_, ?_⟩
    · simp [bfsAssigns]
    · simp
  | cons s rest ih =>
    intro q2
    cases s with
    | assign ts0 v0 =>
      obtain ⟨l1, l2, h1, h2⟩ := ih q2
      refine ⟨(ts0, v0) :: l1, l2, ?_, ?_⟩
      · simp [bfsAssigns, h1]
      · simp [bfsAssigns, h2]
    | block body =>
      obtain ⟨l1, l2, h1, h2⟩ := ih (q2 ++ body)
      refine ⟨l1, l2, ?_, ?_⟩
      · have heq : (rest ++ PyStmt.assign ts v :: q2) ++ body =
            rest ++ PyStmt.assign ts v :: (q2 ++ body) := by simp
        simp only [List.cons_append, bfsAssigns]
        rw [heq]
        exact h1
      · have heq : (rest ++ q2) ++ body = rest ++ (q2 ++ body) := by simp
        simp only [List.cons_append, bfsAssigns]
        rw [heq]
        exact h2
    | other =>
      obtain ⟨l1, l2, h1, h2⟩ := ih q2
      refine ⟨l1, l2, ?_, ?_⟩
      · simp [bfsAssigns, h1]
      · simp [bfsAssigns, h2]

theorem foldAssigns_skip {ts : List PyTarget} {v : PyExpr}
    (hskip : ∀ acc, processAssign acc ts v = .ok acc) (l1 : List (List PyTarget × PyExpr)) :
    ∀ (l2 : List (List PyTarget × PyExpr)) (acc : List PyVal),
      foldAssigns acc (l1 ++ (ts, v) :: l2) = foldAssigns acc (l1 ++ l2) := by
  induction l1 with
  | nil =>
    intro l2 acc
    simp [foldAssigns, hskip acc]
  | cons p rest ih =>
    intro l2 acc
    obtain ⟨ts0, v0⟩ := p
    simp only [List.cons_append, foldAssigns]
    cases processAssign acc ts0 v0 with
    | error e => rfl
    | ok acc2 => exact ih l2 acc2

theorem processClass_skip {ts : List PyTarget} {v : PyExpr}
    (hskip : ∀ acc, processAssign acc ts v = .ok acc)
    (info : RequirementsInfo) (cname : String) (pre post : List PyStmt) :
    processClass info cname (pre ++ PyStmt.assign ts v :: post) =
      processClass info cname (pre ++ post) := by
  obtain ⟨l1, l2, h1, h2⟩ := bfsAssigns_insert pre ts v post
  simp only [processClass, h1, h2, foldAssigns_skip hskip]

theorem extractTop_congr_class {cname : String} {bodyA bodyB : List PyStmt}
    (h : ∀ info, processClass info cname bodyA = processClass info cname bodyB)
    (T1 : List TopStmt) :
    ∀ (T2 : List TopStmt) (info : RequirementsInfo),
      extractTop info (T1 ++ TopStmt.classDef cname bodyA :: T2) =
        extractTop info (T1 ++ TopStmt.classDef cname bodyB :: T2) := by
  induction T1 with
  | nil =>
    intro T2 info
    simp only [List.nil_append, extractTop, h info]
  | cons t rest ih =>
    intro T2 info
    cases t with
    | classDef cname0 body0 =>
      simp only [List.cons_append, extractTop]
      cases processClass info cname0 body0 with
      | error e => rfl
      | ok info2 => exact ih T2 info2
    | plain =>
      simp only [List.cons_append, extractTop]
      exact ih T2 info

/-! ## Error propagation through the extractor -/

theorem processAssign_error {targets : List PyTarget} {value : PyExpr}
    (hmatch : "library_metadata" ∈ targetIds targets)
    (hbad : badMetadataValue value) (acc : List PyVal) :
    exceptIsError (processAssign acc targets value) = true := by
  rcases hbad with ⟨e, he⟩ | ⟨v, hv, hnd⟩
  · simp [processAssign, hmatch, he, exceptIsError]
  · cases v <;> simp_all [processAssign, hmatch, hv, isDict, pyGet, exceptIsError]

theorem foldAssigns_error_of_mem {ts : List PyTarget} {v : PyExpr}
    {l : List (List PyTarget × PyExpr)} (hmem : (ts, v) ∈ l)
    (herr : ∀ acc, exceptIsError (processAssign acc ts v) = true) :
    ∀ acc, exceptIsError (foldAssigns acc l) = true := by
  induction l with
  | nil => cases hmem
  | cons p rest ih =>
    intro acc
    obtain ⟨ts0, v0⟩ := p
    rcases List.mem_cons.mp hmem with h0 | h0
    · obtain ⟨hts, hv⟩ := Prod.ext_iff.mp h0
      subst hts
      subst hv
      simp only [foldAssigns]
      cases h : processAssign acc ts v with
      | error e => simp [exceptIsError]
      | ok acc2 =>
        have := herr acc
        rw [h] at this
        simp [exceptIsError] at this
    · simp only [foldAssigns]
      cases processAssign acc ts0 v0 with
      | error e => simp [exceptIsError]
      | ok acc2 => exact ih h0 acc2

theorem processClass_error_of {cname : String} {body : List PyStmt}
    (h : ∀ acc, exceptIsError (foldAssigns acc (bfsAssigns body)) = true)
    (info : RequirementsInfo) :
    exceptIsError (processClass info cname body) = true := by
  simp only [processClass]
  cases hf : foldAssigns info.requirements (bfsAssigns body) with
  | error e => simp [exceptIsError]
  | ok reqs =>
    have := h info.requirements
    rw [hf] at this
    simp [exceptIsError] at this

theorem extractTop_error_of_mem {cname : String} {body : List PyStmt}
    {tree : List TopStmt} (hmem : TopStmt.classDef cname body ∈ tree)
    (herr : ∀ info, exceptIsError (processClass info cname body) = true) :
    ∀ info, exceptIsError (extractTop info tree) = true := by
  induction tree with
  | nil => cases hmem
  | cons t rest ih =>
    intro info
    rcases List.mem_cons.mp hmem with h0 | h0
    · subst h0
      simp only [extractTop]
      cases h : processClass info cname body with
      | error e => simp [exceptIsError]
      | ok info2 =>
        have := herr info
        rw [h] at this
        simp [exceptIsError] at this
    · cases t with
      | classDef cname0 body0 =>
        simp only [extractTop]
        cases processClass info cname0 body0 with
        | error e => simp [exceptIsError]
        | ok info2 => exact ih h0 info2
      | plain =>
        simp only [extractTop]
        exact ih h0 info

/-! ## Evaluation without matching assignments -/

theorem foldAssigns_nomatch {l : List (List PyTarget × PyExpr)}
    (h : ∀ ts v, (ts, v) ∈ l → "library_metadata" ∉ targetIds ts) :
    ∀ acc, foldAssigns acc l = .ok acc := by
  induction l with
  | nil => intro acc; rfl
  | cons p rest ih =>
    intro acc
    obtain ⟨ts0, v0⟩ := p
    have h0 : "library_metadata" ∉ targetIds ts0 := h ts0 v0 (List.mem_cons_self _ _)
    simp only [foldAssigns, processAssign, h0, if_neg]
    exact ih (fun ts v hm => h ts v (List.mem_cons_of_mem _ hm)) acc

theorem extractTop_nomatch {tree : List TopStmt} (hno : NoMetadataAssign tree) :
    ∀ info : RequirementsInfo,
      extractTop info tree = .ok ⟨info.classes ++ classChars tree, info.requirements⟩ := by
  induction tree with
  | nil => intro info; simp [extractTop, classChars]
  | cons t rest ih =>
    intro info
    have hrest : NoMetadataAssign rest := by
      intro cname body hmem ts v hts
      exact hno cname body (List.mem_cons_of_mem _ hmem) ts v hts
    cases t with
    | classDef cname body =>
      have hbody : ∀ ts v, (ts, v) ∈ bfsAssigns body → "library_metadata" ∉ targetIds ts :=
        hno cname body (List.mem_cons_self _ _)
      simp only [extractTop, processClass, foldAssigns_nomatch hbody]
      rw [ih hrest]
      simp [classChars]
    | plain =>
      simp only [extractTop]
      rw [ih hrest]
      simp [classChars]

/-! ## Accumulator homomorphism -/

theorem processAssign_shift (a b : List PyVal) (ts : List PyTarget) (v : PyExpr) :
    processAssign (a ++ b) ts v =
      Except.map (fun l => a ++ l) (processAssign b ts v) := by
  simp only [processAssign]
  split
  · cases hle : literal_eval v with
    | error e => simp [hle, Except.map]
    | ok lm =>
      cases hg : pyGet lm "requirements" (.list []) with
      | error e => simp [hle, hg, Except.map]
      | ok r => cases r <;> simp [hle, hg, pyExtend, Except.map]
  · rfl

theorem foldAssigns_shift (l : List (List PyTarget × PyExpr)) :
    ∀ a b : List PyVal,
      foldAssigns (a ++ b) l = Except.map (fun r => a ++ r) (foldAssigns b l) := by
  induction l with
  | nil => intro a b; rfl
  | cons p rest ih =>
    intro a b
    obtain ⟨ts0, v0⟩ := p
    simp only [foldAssigns]
    rw [processAssign_shift]
    cases processAssign b ts0 v0 with
    | error e => rfl
    | ok acc2 => exact ih a acc2

theorem processClass_shift (c : List String) (r : List PyVal) (cname : String)
    (body : List PyStmt) :
    processClass ⟨c, r⟩ cname body =
      Except.map (fun i => ⟨c ++ i.classes, r ++ i.requirements⟩)
        (processClass ⟨[], []⟩ cname body) := by
  have hr : foldAssigns r (bfsAssigns body) =
      Except.map (fun x => r ++ x) (foldAssigns [] (bfsAssigns body)) := by
    have := foldAssigns_shift (bfsAssigns body) r []
    simpa using this
  simp only [processClass, hr]
  cases foldAssigns [] (bfsAssigns body) with
  | error e => rfl
  | ok reqs => simp [Except.map]

theorem extractTop_shift (tree : List TopStmt) :
    ∀ (c : List String) (r : List PyVal),
      extractTop ⟨c, r⟩ tree =
        Except.map (fun i => ⟨c ++ i.classes, r ++ i.requirements⟩)
          (extractTop ⟨[], []⟩ tree) := by
  induction tree with
  | nil => intro c r; simp [extractTop, Except.map]
  | cons t rest ih =>
    intro c r
    cases t with
    | classDef cname body =>
      simp only [extractTop]
      rw [processClass_shift]
      cases hpc : processClass ⟨[], []⟩ cname body with
      | error e => rfl
      | ok i1 =>
        simp only [Except.map]
        have hi1 : i1 = ⟨i1.classes, i1.requirements⟩ := rfl
        rw [hi1]
        rw [ih (c ++ i1.classes) (r ++ i1.requirements), ih i1.classes i1.requirements]
        cases extractTop ⟨[], []⟩ rest with
        | error e => rfl
        | ok i2 => simp [Except.map]
    | plain =>
      simp only [extractTop]
      exact ih c r

theorem extractTop_append (t1 : List TopStmt) :
    ∀ (t2 : List TopStmt) (info : RequirementsInfo),
      extractTop info (t1 ++ t2) =
        match extractTop info t1 with
        | .error e => .error e
        | .ok m => extractTop m t2 := by
  induction t1 with
  | nil => intro t2 info; rfl
  | cons t rest ih =>
    intro t2 info
    cases t with
    | classDef cname body =>
      simp only [List.cons_append, extractTop]
      cases processClass info cname body with
      | error e => rfl
      | ok info2 => exact ih t2 info2
    | plain =>
      simp only [List.cons_append, extractTop]
      exact ih t2 info

/-! ## pyset membership -/

theorem pysetAux_mem (l : List String) :
    ∀ (seen : List String) (x : String),
      x ∈ pysetAux seen l ↔ x ∈ l ∧ x ∉ seen := by
  induction l with
  | nil => intro seen x; simp [pysetAux]
  | cons y rest ih =>
    intro seen x
    by_cases hy : y ∈ seen
    · simp only [pysetAux, if_pos hy, ih]
      constructor
      · rintro ⟨hx, hs⟩
        exact ⟨List.mem_cons_of_mem _ hx, hs⟩
      · rintro ⟨hx, hs⟩
        rcases List.mem_cons.mp hx with h0 | h0
        · subst h0; exact absurd hy hs
        · exact ⟨h0, hs⟩
    · simp only [pysetAux, if_neg hy]
      constructor
      · intro hx
        rcases List.mem_cons.mp hx with h0 | h0
        · subst h0; exact ⟨List.mem_cons_self _ _, hy⟩
        · have := (ih (seen ++ [y]) x).mp h0
          refine ⟨List.mem_cons_of_mem _ this.1, fun hs => this.2 ?_⟩
          simp [hs]
      · rintro ⟨hx, hs⟩
        rcases List.mem_cons.mp hx with h0 | h0
        · subst h0; exact List.mem_cons_self _ _
        · by_cases hxy : x = y
          · subst hxy; exact List.mem_cons_self _ _
          · refine List.mem_cons_of_mem _ ((ih (seen ++ [y]) x).mpr ⟨h0, ?_⟩)
            simp [hs, hxy]

theorem pyset_mem (l : List String) (x : String) : x ∈ pyset l ↔ x ∈ l := by
  simp [pyset, pysetAux_mem]

/-! ## Independence of the orchestrator from installer exit codes -/

theorem stateObs_cases {a b : Except String PyState} (h : stateObs a = stateObs b) :
    (∃ e, a = .error e ∧ b = .error e) ∨
      (∃ s t, a = .ok s ∧ b = .ok t ∧ Agree s t) := by
  cases a with
  | error e =>
    cases b with
    | error f =>
      left
      refine ⟨e, rfl, ?_⟩
      simp [stateObs] at h
      simp [h]
    | ok t => simp [stateObs] at h
  | ok s =>
    cases b with
    | error f => simp [stateObs] at h
    | ok t =>
      right
      refine ⟨s, t, rfl, rfl, ?_⟩
      simp [stateObs] at h
      exact ⟨h.1, h.2.1, h.2.2⟩

theorem exec_agree (env : Env) (g : String → Int) {s t : PyState} (c : String)
    (h : Agree s t) :
    Agree (execute_shell_command env s c).1
      (execute_shell_command { env with shellResult := g } t c).1 := by
  obtain ⟨h1, h2, h3⟩ := h
  simp only [execute_shell_command]
  split <;> split <;> exact ⟨h1, h2, by simp [h3]⟩

theorem install_agree (env : Env) (g : String → Int) (reqs : List PyVal) :
    ∀ {s t : PyState}, Agree s t →
      Agree (install_requirements env s reqs)
        (install_requirements { env with shellResult := g } t reqs) := by
  induction reqs with
  | nil => intro s t h; exact h
  | cons req rest ih =>
    intro s t h
    simp only [install_requirements]
    exact ih (exec_agree env g _ h)

theorem import_agree (env : Env) (g : String → Int) {s t : PyState} (m : String)
    (h : Agree s t) :
    Agree (import_module env s m) (import_module { env with shellResult := g } t m) := by
  obtain ⟨h1, h2, h3⟩ := h
  exact ⟨by simp [import_module, h1], by simp [import_module, h2],
    by simp [import_module, h3]⟩

theorem processModule_agree (env : Env) (g : String → Int)
    (rd : List (String × RequirementsInfo)) (grp m : String) {s t : PyState}
    (h : Agree s t) :
    Agree (processModule env rd grp s m)
      (processModule { env with shellResult := g } rd grp t m) := by
  simp only [processModule]
  cases rd.lookup m with
  | none => exact import_agree env g _ h
  | some info => exact import_agree env g _ (install_agree env g _ h)

theorem processModules_agree (env : Env) (g : String → Int)
    (rd : List (String × RequirementsInfo)) (grp : String) (ms : List String) :
    ∀ {s t : PyState}, Agree s t →
      Agree (processModules env rd grp s ms)
        (processModules { env with shellResult := g } rd grp t ms) := by
  induction ms with
  | nil => intro s t h; exact h
  | cons m rest ih =>
    intro s t h
    simp only [processModules]
    exact ih (processModule_agree env g rd grp m h)

theorem experimental_agree (env : Env) (g : String → Int) {s0 t0 : PyState}
    (h : Agree s0 t0) :
    stateObs (experimental_phase env s0) =
      stateObs (experimental_phase { env with shellResult := g } t0) := by
  obtain ⟨h1, h2, h3⟩ := h
  simp only [experimental_phase]
  cases hrd : buildRequirementsDict env.contribFiles with
  | error e => rfl
  | ok rd =>
    have hs1 : Agree { s0 with sysPath := s0.sysPath ++ [env.contribDir], events := s0.events ++ [Event.sysPathAppend env.contribDir] } { t0 with sysPath := t0.sysPath ++ [env.contribDir], events := t0.events ++ [Event.sysPathAppend env.contribDir] } := ⟨by simp [h1], by simp [h2], by simp [h3]⟩
    have h5 := processModules_agree env g rd "metrics" env.metricsAll (import_agree env g "metrics" (processModules_agree env g rd "expectations" env.expectationsAll (import_agree env g "expectations" hs1)))
    obtain ⟨a1, a2, a3⟩ := h5
    simp [stateObs, a1, a2, a3]

theorem gallery_phase_agree (env : Env) (g : String → Int) (ic : Bool)
    (core : List String) {s t : PyState} (h : Agree s t) :
    galleryObs (.ok (gallery_phase env ic core s)) =
      galleryObs (.ok (gallery_phase { env with shellResult := g } ic core t)) := by
  obtain ⟨h1, h2, h3⟩ := h
  simp [gallery_phase, galleryObs, h1, h2, h3]

theorem galleryTail_congr (env : Env) (g : String → Int) (ic : Bool) (core : List String)
    {a b : Except String PyState} (h : stateObs a = stateObs b) :
    galleryObs (galleryTail env ic core a) =
      galleryObs (galleryTail { env with shellResult := g } ic core b) := by
  rcases stateObs_cases h with ⟨e, ha, hb⟩ | ⟨s, t, ha, hb, hst⟩
  · rw [ha, hb]
    rfl
  · rw [ha, hb]
    exact gallery_phase_agree env g ic core hst

theorem build_gallery_obs_indep (env : Env) (g : String → Int) (ic ice : Bool) :
    galleryObs (build_gallery env ic ice) =
      galleryObs (build_gallery { env with shellResult := g } ic ice) := by
  cases ice with
  | false =>
    have h : stateObs (Except.ok (⟨env.initialRegistry, env.initialSysPath, [], []⟩ : PyState)) = stateObs (Except.ok (⟨env.initialRegistry, env.initialSysPath, [], []⟩ : PyState)) := rfl
    exact galleryTail_congr env g ic env.initialRegistry h
  | true =>
    have h : stateObs (experimental_phase env ⟨env.initialRegistry, env.initialSysPath, [], []⟩) = stateObs (experimental_phase { env with shellResult := g } ⟨env.initialRegistry, env.initialSysPath, [], []⟩) := experimental_agree env g ⟨rfl, rfl, rfl⟩
    exact galleryTail_congr env g ic env.initialRegistry h

/-! ## Claims -/

/-- C1: for a file whose single top-level class `Foo` assigns
`library_metadata = {"requirements": ["numpy>=1.20", "pandas"]}`, the claim
says `get_contrib_requirements` returns `classes = ["Foo"]` (the class name
as one element) and `requirements = ["numpy>=1.20", "pandas"]`.  The
requirements part holds, but `requirements_info["classes"] += child.name`
extends the list with the characters of the name, so the code returns
`classes = ["F", "o", "o"]`, not `["Foo"]`: the claim (and the stated data
model of the result) is right and the code has a slip. -/
theorem c1_class_name_flattening :
    get_contrib_requirements fooFileTree =
        .ok ⟨["F", "o", "o"], [PyVal.str "numpy>=1.20", PyVal.str "pandas"]⟩ ∧
      get_contrib_requirements fooFileTree ≠
        .ok ⟨["Foo"], [PyVal.str "numpy>=1.20", PyVal.str "pandas"]⟩ := by
  have heval : get_contrib_requirements fooFileTree =
      .ok ⟨["F", "o", "o"], [PyVal.str "numpy>=1.20", PyVal.str "pandas"]⟩ := by
    simp only [fooFileTree, get_contrib_requirements, extractTop, processClass, bfsAssigns,
      foldAssigns, processAssign, targetIds, collectTargetIds, targetId, literal_eval,
      literal_eval_dict, literal_eval_list, pyGet, dictGetLast, pyExtend, charStrings]
    rfl
  refine ⟨heval, ?_⟩
  rw [heval]
  intro h
  simp [RequirementsInfo.mk.injEq] at h

/-- C2: when the installer subprocess exits nonzero, `execute_shell_command`
catches the failure, logs it at ERROR and returns the return code instead of
raising (first two conjuncts: the helper is total, its value is the exit
code, and a nonzero code appends an ERROR log line); and `build_gallery`
never inspects that code, so everything observable about the run except the
log stream — every subsequent installer invocation, every import, the final
registry and the returned gallery — is independent of the exit codes the
installer produces (third conjunct). -/
theorem c2_install_failure_logged_and_nonfatal (env : Env) (g : String → Int)
    (ic ice : Bool) :
    (∀ (s : PyState) (cmd : String),
        (execute_shell_command env s cmd).2 = env.shellResult cmd ∧
        (env.shellResult cmd ≠ 0 →
          (execute_shell_command env s cmd).1.logs =
            s.logs ++ [(LogLevel.error,
              subprocessErrorMessage cmd (env.shellResult cmd))])) ∧
      galleryObs (build_gallery env ic ice) =
        galleryObs (build_gallery { env with shellResult := g } ic ice) := by
  constructor
  · intro s cmd
    constructor
    · simp only [execute_shell_command]
      split
      · next hc => simp [hc]
      · rfl
    · intro hne
      simp [execute_shell_command, hne]
  · exact build_gallery_obs_indep env g ic ice

/-- C2 witness: in the concrete environment `envW` every installer call
exits with code 1; the helper returns 1 and logs at ERROR, and the whole
gallery run observably coincides with the run in which every call
succeeds. -/
theorem c2_install_failure_witness :
    (execute_shell_command envW stW "pip").2 = envW.shellResult "pip" ∧
      (execute_shell_command envW stW "pip").1.logs =
        stW.logs ++ [(LogLevel.error, subprocessErrorMessage "pip" (envW.shellResult "pip"))] ∧
      galleryObs (build_gallery envW true true) =
        galleryObs (build_gallery { envW with shellResult := fun _ => 0 } true true) := by
  have h := c2_install_failure_logged_and_nonfatal envW (fun _ => 0) true true
  exact ⟨(h.1 stW "pip").1, (h.1 stW "pip").2 (by decide), h.2⟩

/-- C3: with `include_contrib_experimental = False`, `build_gallery`
performs no externally visible action at all — the event trace is empty, so
`execute_shell_command` is never invoked, nothing is appended to `sys.path`
(which stays at its initial value), and no experimental plugin module is
imported. -/
theorem c3_no_experimental_no_side_effects (env : Env) (ic : Bool) :
    (build_gallery env ic false).map (fun p => (p.1.events, p.1.sysPath)) =
      .ok ([], env.initialSysPath) := rfl

/-- C4: whenever some top-level class contains a walked assignment that
matches `library_metadata` and whose right-hand side either is not
literal-evaluable or evaluates to a non-mapping, `get_contrib_requirements`
raises — the result is an error that propagates to the caller, never an
empty result. -/
theorem c4_bad_metadata_value_raises {tree : List TopStmt} {cname : String}
    {body : List PyStmt} {targets : List PyTarget} {value : PyExpr}
    (hclass : TopStmt.classDef cname body ∈ tree)
    (hassign : (targets, value) ∈ bfsAssigns body)
    (hmatch : "library_metadata" ∈ targetIds targets)
    (hbad : badMetadataValue value) :
    exceptIsError (get_contrib_requirements tree) = true := by
  have herr := processAssign_error hmatch hbad
  have hfold := foldAssigns_error_of_mem hassign herr
  exact extractTop_error_of_mem hclass
    (fun info => @processClass_error_of cname body hfold info) ⟨[], []⟩

/-- C4 witness: the concrete file assigning `library_metadata` a variable
reference makes extraction raise. -/
theorem c4_bad_metadata_value_witness :
    ("library_metadata" ∈ targetIds [PyTarget.name "library_metadata"]) ∧
      exceptIsError (get_contrib_requirements badFileTree) = true := by
  refine ⟨by decide, ?_⟩
  exact @c4_bad_metadata_value_raises badFileTree "Foo"
    [PyStmt.assign [PyTarget.name "library_metadata"] (PyExpr.nameRef "x")]
    [PyTarget.name "library_metadata"] (PyExpr.nameRef "x")
    (by simp [badFileTree])
    (by simp [bfsAssigns])
    (by decide)
    (Or.inl ⟨"ValueError: malformed node or string", by simp [literal_eval]⟩)

/-- C5 counterexample: the claim says a file containing no class with a
`library_metadata` assignment yields an empty classes list and an empty
requirements list; but for the file `class A: pass` the code returns
`classes = ["A"]` (the recorded class name), not `[]`, so the claim as
stated is false at this input. -/
theorem c5_counterexample :
    get_contrib_requirements [TopStmt.classDef "A" []] ≠
      .ok ⟨[], []⟩ := by
  have heval : get_contrib_requirements [TopStmt.classDef "A" []] = .ok ⟨["A"], []⟩ := by
    simp only [get_contrib_requirements, extractTop, processClass, bfsAssigns,
      foldAssigns, charStrings]
    rfl
  rw [heval]
  intro h
  simp [RequirementsInfo.mk.injEq] at h

/-- C5 amended: for every file containing no class with a
`library_metadata` assignment, `get_contrib_requirements` does not raise and
returns an empty requirements list; the classes output is the accumulation
of the top-level class names (character-flattened, as the code builds it),
and in particular it is empty whenever the file has no top-level class
definitions at all. -/
theorem c5_amended_no_metadata_extraction {tree : List TopStmt}
    (hno : NoMetadataAssign tree) :
    get_contrib_requirements tree = .ok ⟨classChars tree, []⟩ ∧
      ((∀ t, t ∈ tree → isClassDef t = false) → classChars tree = []) := by
  constructor
  · have := extractTop_nomatch hno ⟨[], []⟩
    simpa [get_contrib_requirements] using this
  · intro hplain
    induction tree with
    | nil => rfl
    | cons t rest ih =>
      cases t with
      | classDef cname body =>
        have := hplain _ (List.mem_cons_self _ _)
        simp [isClassDef] at this
      | plain =>
        have hrest : NoMetadataAssign rest := by
          intro cname body hmem ts v hts
          exact hno cname body (List.mem_cons_of_mem _ hmem) ts v hts
        exact classChars.eq_3 _ ▸ ih hrest (fun t ht => hplain t (List.mem_cons_of_mem _ ht))

/-- C5 witness: a concrete file with one class whose only assignment does
not target `library_metadata` extracts to empty requirements without
raising. -/
theorem c5_amended_witness :
    get_contrib_requirements abFileTree = .ok ⟨classChars abFileTree, []⟩ ∧
      ((∀ t, t ∈ abFileTree → isClassDef t = false) → classChars abFileTree = []) := by
  refine c5_amended_no_metadata_extraction ?_
  intro cname body hmem ts v hassign
  simp [abFileTree] at hmem
  obtain ⟨h1, h2⟩ := hmem
  subst h1
  subst h2
  simp [bfsAssigns] at hassign
  obtain ⟨h3, h4⟩ := hassign
  subst h3
  decide

/-- C6: an assignment statement with a tuple or list destructuring target is
skipped entirely — deleting it from the class body does not change the
result of `get_contrib_requirements`, even when `library_metadata` occurs
inside the destructuring pattern; only assignments whose targets are simple
names are considered. -/
theorem c6_destructuring_targets_skipped (T1 T2 : List TopStmt) (cname : String)
    (pre post : List PyStmt) (targets : List PyTarget) (value : PyExpr)
    (hdestr : ∃ t, t ∈ targets ∧ isNameTgt t = false) :
    get_contrib_requirements
        (T1 ++ TopStmt.classDef cname (pre ++ PyStmt.assign targets value :: post) :: T2) =
      get_contrib_requirements (T1 ++ TopStmt.classDef cname (pre ++ post) :: T2) := by
  have hskip : ∀ acc, processAssign acc targets value = .ok acc :=
    processAssign_skip_of_nonname hdestr
  exact extractTop_congr_class
    (fun info => processClass_skip hskip info cname pre post) T1 T2 ⟨[], []⟩

/-- C6 witness: a class whose only assignment destructures into
`(a, library_metadata)` extracts exactly like the class with no assignment
at all, although the pattern contains the name `library_metadata` and the
value declares a requirement. -/
theorem c6_destructuring_witness :
    get_contrib_requirements
        [TopStmt.classDef "Foo"
          [PyStmt.assign [PyTarget.tuple [PyTarget.name "a", PyTarget.name "library_metadata"]]
            (PyExpr.dictLit [("requirements", PyExpr.listLit [PyExpr.strLit "numpy"])])]] =
      get_contrib_requirements [TopStmt.classDef "Foo" []] := by
  exact c6_destructuring_targets_skipped [] [] "Foo" [] [] _ _
    ⟨PyTarget.tuple [PyTarget.name "a", PyTarget.name "library_metadata"], by simp, rfl⟩

/-- C7: a matched `library_metadata` mapping without a `requirements` key
contributes nothing and does not raise: the assignment leaves the
requirements accumulator unchanged (first conjunct, via the `[]` default of
`.get`), and deleting the assignment from the class body leaves the result
of `get_contrib_requirements` unchanged (second conjunct). -/
theorem c7_missing_requirements_key_contributes_nothing (T1 T2 : List TopStmt)
    (cname : String) (pre post : List PyStmt) (targets : List PyTarget)
    (value : PyExpr) (kvs : List (String × PyVal)) (acc : List PyVal)
    (hmatch : "library_metadata" ∈ targetIds targets)
    (heval : literal_eval value = .ok (PyVal.dict kvs))
    (hnokey : ∀ p, p ∈ kvs → p.1 ≠ "requirements") :
    processAssign acc targets value = .ok acc ∧
      get_contrib_requirements
          (T1 ++ TopStmt.classDef cname (pre ++ PyStmt.assign targets value :: post) :: T2) =
        get_contrib_requirements (T1 ++ TopStmt.classDef cname (pre ++ post) :: T2) := by
  have hskip := processAssign_skip_of_nokey hmatch heval hnokey
  exact ⟨hskip acc, extractTop_congr_class
    (fun info => processClass_skip hskip info cname pre post) T1 T2 ⟨[], []⟩⟩

/-- C7 witness: a `library_metadata` mapping holding only a `maintainers`
key contributes nothing at a concrete accumulator and a concrete file. -/
theorem c7_missing_key_witness :
    processAssign [PyVal.str "r0"] [PyTarget.name "library_metadata"]
        (PyExpr.dictLit [("maintainers", PyExpr.listLit [])]) = .ok [PyVal.str "r0"] ∧
      get_contrib_requirements
          [TopStmt.classDef "Foo"
            [PyStmt.assign [PyTarget.name "library_metadata"]
              (PyExpr.dictLit [("maintainers", PyExpr.listLit [])])]] =
        get_contrib_requirements [TopStmt.classDef "Foo" []] := by
  exact c7_missing_requirements_key_contributes_nothing [] [] "Foo" [] [] _ _
    [("maintainers", PyVal.list [])] [PyVal.str "r0"]
    (by decide)
    (by simp [literal_eval, literal_eval_dict, literal_eval_list])
    (by decide)

/-- C8: extraction over the concatenation of two module fragments is the
ordered concatenation of the two extractions — in particular, for a file
with two top-level classes each declaring its own requirements, the
requirements output is the first list followed by the second, each in
declaration order. -/
theorem c8_extraction_concatenates (t1 t2 : List TopStmt) (i1 i2 : RequirementsInfo)
    (h1 : get_contrib_requirements t1 = .ok i1)
    (h2 : get_contrib_requirements t2 = .ok i2) :
    get_contrib_requirements (t1 ++ t2) =
      .ok ⟨i1.classes ++ i2.classes, i1.requirements ++ i2.requirements⟩ := by
  simp only [get_contrib_requirements] at h1 h2 ⊢
  rw [extractTop_append t1 t2 ⟨[], []⟩, h1]
  show extractTop i1 t2 = _
  have hi1 : i1 = (⟨i1.classes, i1.requirements⟩ : RequirementsInfo) := rfl
  rw [hi1, extractTop_shift t2 i1.classes i1.requirements, h2]
  rfl

/-- C8 witness: the two-class file made of `A` (requiring `numpy`) followed
by `B` (requiring `pandas`) extracts to the concatenated requirement
lists. -/
theorem c8_concatenation_witness :
    get_contrib_requirements (aFileTree ++ bFileTree) =
      .ok ⟨["A", "B"], [PyVal.str "numpy", PyVal.str "pandas"]⟩ := by
  exact c8_extraction_concatenates aFileTree bFileTree
    ⟨["A"], [PyVal.str "numpy"]⟩ ⟨["B"], [PyVal.str "pandas"]⟩
    (by simp only [aFileTree, get_contrib_requirements, extractTop, processClass, bfsAssigns,
          foldAssigns, processAssign, targetIds, collectTargetIds, targetId, literal_eval,
          literal_eval_dict, literal_eval_list, pyGet, dictGetLast, pyExtend, charStrings]
        rfl)
    (by simp only [bFileTree, get_contrib_requirements, extractTop, processClass, bfsAssigns,
          foldAssigns, processAssign, targetIds, collectTargetIds, targetId, literal_eval,
          literal_eval_dict, literal_eval_list, pyGet, dictGetLast, pyExtend, charStrings]
        rfl)

/-- C9: with `include_core = True` and `include_contrib_experimental =
False`, the key list of the returned gallery is exactly `set(...)` of the
registry contents reported at the start of the run, whose membership
coincides with the initial registry — so the key set equals the core
set. -/
theorem c9_core_key_set (env : Env) :
    (build_gallery env true false).map (fun p => p.2.map Prod.fst) =
        .ok (pyset env.initialRegistry) ∧
      ∀ x, x ∈ pyset env.initialRegistry ↔ x ∈ env.initialRegistry := by
  constructor
  · simp [build_gallery, galleryTail, gallery_phase, Except.map, List.map_map,
      Function.comp_def]
  · exact fun x => pyset_mem env.initialRegistry x

/-- C10: an assignment with several targets that are all simple names, one
of them `library_metadata`, is matched and contributes its requirements
(first conjunct); but as soon as any target of the statement is not a simple
name, the id comprehension aborts for the whole assignment and the statement
contributes nothing, even though `library_metadata` is one of the other
targets (second conjunct). -/
theorem c10_multi_target_assignments :
    (∀ (acc : List PyVal) (ids : List String) (value : PyExpr)
        (kvs : List (String × PyVal)) (rs : List PyVal),
        "library_metadata" ∈ ids →
        literal_eval value = .ok (PyVal.dict kvs) →
        dictGetLast kvs "requirements" = some (PyVal.list rs) →
        processAssign acc (ids.map PyTarget.name) value = .ok (acc ++ rs)) ∧
      (∀ (acc : List PyVal) (targets : List PyTarget) (value : PyExpr),
        (∃ t, t ∈ targets ∧ isNameTgt t = false) →
        processAssign acc targets value = .ok acc) := by
  constructor
  · intro acc ids value kvs rs hmem heval hkey
    simp [processAssign, targetIds_map_name, hmem, heval, pyGet, hkey, pyExtend]
  · intro acc targets value hdestr
    exact processAssign_skip_of_nonname hdestr acc

/-- C10 witness: `library_metadata = backup = {...}` contributes its
requirement, while `(a, b) = library_metadata = {...}` contributes
nothing. -/
theorem c10_multi_target_witness :
    processAssign [] (["library_metadata", "backup"].map PyTarget.name)
        (PyExpr.dictLit [("requirements", PyExpr.listLit [PyExpr.strLit "numpy"])]) =
      .ok [PyVal.str "numpy"] ∧
    processAssign []
        [PyTarget.tuple [PyTarget.name "a", PyTarget.name "b"], PyTarget.name "library_metadata"]
        (PyExpr.intLit 0) = .ok [] := by
  constructor
  · exact c10_multi_target_assignments.1 [] ["library_metadata", "backup"] _
      [("requirements", PyVal.list [PyVal.str "numpy"])] [PyVal.str "numpy"]
      (by decide)
      (by simp [literal_eval, literal_eval_dict, literal_eval_list])
      rfl
  · exact c10_multi_target_assignments.2 [] _ _
      ⟨PyTarget.tuple [PyTarget.name "a", PyTarget.name "b"], by simp, rfl⟩

end BuildGallery
